import Mathlib

/-!
Verification of the SDQScriptTest log-watching script.

The embedding below follows `src/SDQScriptTest.py`: the constants and
`process_line`, `createRotatingLog` and the per-line body of the
`scan_syslog` loop are translated directly; file contents are modelled as
lists of characters or of lines, timestamps as natural numbers.  The
`expiringdict.ExpiringDict` cache and the `stopit.ThreadingTimeout`
supervisor come from external packages whose code is not part of the
repository; those two are modelled from the specification's contracts
(§4.1 and §4.6/§7) and are marked as such in their doc comments.
-/

/-- `FAILURES = ['ERROR', 'WARNING', 'WARN']` — the fixed failure keywords. -/
def FAILURES : List String := ["ERROR", "WARNING", "WARN"]

/-- `TOUCH_COUNT_FILE_ROTATE = 15` — rotate the report file after this many touches. -/
def TOUCH_COUNT_FILE_ROTATE : Nat := 15

/-- `REPORT_INTERVAL = 7*60` — report interval in seconds, also the cache window. -/
def REPORT_INTERVAL : Nat := 7 * 60

/-- Substring containment on character lists: Python's `needle in hay`. -/
def containsSub (needle : List Char) : List Char → Bool
  | [] => needle.isEmpty
  | c :: t => needle.isPrefixOf (c :: t) || containsSub needle t

/-- Python's `needle in hay` for strings: case-sensitive substring containment. -/
def strContains (hay needle : String) : Bool := containsSub needle.data hay.data

/-- Modelled from the spec: the `expiringdict.ExpiringDict` package used for the
`touches` cache is not part of the repository's sources.  §3/§4.1: a bounded,
time-windowed store; entries keyed by insertion timestamp, kept in insertion
order (oldest first). -/
structure ExpiringDict where
  maxLen : Nat
  maxAge : Nat
  entries : List (Nat × String)
deriving DecidableEq

/-- Modelled from the spec (§4.1): `Insert(timestamp, value)` adds an entry,
first evicting any entry older than `window` and, if at capacity, evicting
the oldest-inserted entry regardless of age. -/
def expInsert (c : ExpiringDict) (now : Nat) (v : String) : ExpiringDict :=
  let kept := c.entries.filter (fun e => now ≤ e.1 + c.maxAge)
  let kept2 := if c.maxLen ≤ kept.length then kept.drop (kept.length + 1 - c.maxLen) else kept
  ⟨c.maxLen, c.maxAge, kept2 ++ [(now, v)]⟩

/-- Modelled from the spec (§4.1): `Size()` returns the count of entries that
are not older than `window` as of the call, with the same lazy-eviction
check as Insert. -/
def expSize (c : ExpiringDict) (now : Nat) : Nat :=
  (c.entries.filter (fun e => now ≤ e.1 + c.maxAge)).length

/-- Result of `process_line`: its return value, the cache after the call and
the report file's lines after the call. -/
structure LineResult where
  isTouch : Bool
  cache : ExpiringDict
  report : List String
deriving DecidableEq

/-- The `failed` flag of `process_line`: the `for failure in FAILURES` loop. -/
def lineFailed (line : String) : Bool :=
  FAILURES.foldl (fun acc failure => acc || strContains line failure) false

/-- `process_line(line, touchmark, touches, filename)` (lines 131-154): a line
containing `touchmark` is cached under the current time and the function
returns True; otherwise, if any failure keyword occurs in the line, a
timestamp-prefixed copy of the line is appended to the report file; the
return value is False.  `now` is `time.time()`, `ts` the formatted
`datetime.datetime.now()` prefix, `report` the report file's lines. -/
def process_line (line touchmark : String) (touches : ExpiringDict) (now : Nat)
    (ts : String) (report : List String) : LineResult :=
  if strContains line touchmark then
    ⟨true, expInsert touches now line, report⟩
  else if lineFailed line then
    ⟨false, touches, report ++ [ts ++ "\t" ++ line]⟩
  else
    ⟨false, touches, report⟩

/-- `createRotatingLog(filename, logfile, file_count)` (lines 81-94): the name
the report file is renamed to — `logfile` when no file exists at `logfile`,
otherwise `logfile + '.' + str(file_count)`.  `files` is the set of paths
that exist. -/
def createRotatingLog (files : List String) (filename logfile : String)
    (file_count : Nat) : String :=
  if logfile ∈ files then logfile ++ "." ++ toString file_count else logfile

/-- State of the `scan_syslog` loop (lines 106-128): the two counters, the
cache, the report file's lines, the set of existing archive paths and the
archived files with their contents (newest first). -/
structure ScanState where
  touch_count : Nat
  file_count : Nat
  touches : ExpiringDict
  report : List String
  files : List String
  archives : List (String × List String)
deriving DecidableEq

/-- One iteration of the `scan_syslog` loop body for a completed line
(lines 119-128): process the line, count a touch, and when the counter
reaches `TOUCH_COUNT_FILE_ROTATE` rename the report file to the archive
target, increment `file_count` and reset the counter. -/
def scanStep (filename touchmark logfile ts : String) (now : Nat)
    (s : ScanState) (line : String) : ScanState :=
  let r := process_line line touchmark s.touches now ts s.report
  let tc := if r.isTouch then s.touch_count + 1 else s.touch_count
  if tc = TOUCH_COUNT_FILE_ROTATE then
    let target := createRotatingLog s.files filename logfile s.file_count
    ⟨0, s.file_count + 1, r.cache, [], target :: s.files, (target, r.report) :: s.archives⟩
  else
    ⟨tc, s.file_count, r.cache, r.report, s.files, s.archives⟩

/-- Run the scan loop over a list of completed `(line, now)` pairs. -/
def scanRun (filename touchmark logfile ts : String) (s : ScanState)
    (lines : List (String × Nat)) : ScanState :=
  lines.foldl (fun st p => scanStep filename touchmark logfile ts p.2 st p.1) s

/-- Fresh session: `touch_count = 0`, `file_count = 0`, the cache built by
`main` (`ExpiringDict(max_len=1000, max_age_seconds=REPORT_INTERVAL)`),
empty report file, no archives (main removed files matching `logfile`). -/
def initialScanState : ScanState :=
  ⟨0, 0, ⟨1000, REPORT_INTERVAL, []⟩, [], [], []⟩

/-- `n` touch-marker lines arriving at seconds 0, 1, …: each line is the
marker `M` plus the newline terminator. -/
def touchLines (n : Nat) : List (String × Nat) :=
  (List.range n).map (fun i => ("M\n", i))

/-- The `(files, file_count)` pair of the rotation subsystem after `n`
rotations in a fresh session: each rotation renames the report file to
`createRotatingLog`'s target and increments `file_count` (lines 123-127). -/
def rotState (filename logfile : String) : Nat → List String × Nat
  | 0 => ([], 0)
  | n + 1 =>
    let p := rotState filename logfile n
    (createRotatingLog p.1 filename logfile p.2 :: p.1, p.2 + 1)

/-- The target name of the `(n+1)`-th rotation in a fresh session. -/
def rotTarget (filename logfile : String) (n : Nat) : String :=
  createRotatingLog (rotState filename logfile n).1 filename logfile
    (rotState filename logfile n).2

/-- Does a string end in the line terminator: `line[-1] == '\n'`. -/
def endsNewline (s : String) : Bool := s.data.getLast? == some '\n'

/-- The inner line-assembly loop of `scan_syslog` (lines 111-118): starting
from the buffered fragment `acc`, consume successive `readline` results
(`""` means no new data — the loop sleeps and retries) until the
accumulated line ends in `'\n'`; then the line is complete.  `none` when
the reads run out before a terminator is seen (the real loop would keep
polling). -/
def assembleLine : List String → String → Option (String × List String)
  | [], _ => none
  | d :: rest, acc =>
    if d = "" then assembleLine rest acc
    else if endsNewline (acc ++ d) then some (acc ++ d, rest)
    else assembleLine rest (acc ++ d)

/-- `f.seek(0, 2)` (line 109): the position after seeking to the end of the
file's current content. -/
def seekEnd (content : List Char) : Nat := content.length

/-- Everything a reader positioned at `pos` can ever read from a file whose
content is `content`. -/
def readFrom (content : List Char) (pos : Nat) : List Char := content.drop pos

/-- How a bounded session ends: the deadline fires, or a fatal error occurs
before the deadline. -/
inductive SessionEnd
  | deadline
  | fatal (msg : String)
deriving DecidableEq

/-- Modelled from the spec: `stopit.ThreadingTimeout` (external package, not
in the repository's sources).  §4.6/§7: with `swallow_exc=True` the deadline
interrupts the block and the timeout exception is swallowed inside the
context manager, leaving the context's state at 2 (timed out); a fatal
error before the deadline propagates out of the block with the state still
at 1 (executing). -/
def stopitState : SessionEnd → Nat
  | .deadline => 2
  | .fatal _ => 1

/-- Modelled from the spec (§7): a fatal I/O error is propagated, not
swallowed, so it escapes the `with` block and `main`. -/
def stopitPropagates : SessionEnd → Bool
  | .deadline => false
  | .fatal _ => true

/-- The bounded branch of `main` (lines 236-250): the lines it prints.  The
`except stopit.TimeoutException` branch would print `error: exception_seen`,
but with `swallow_exc=True` the exception never escapes the context
manager; a fatal error propagates out of `main` before any print; after a
normal exit of the block, `success` is printed exactly when the context's
state is 2. -/
def mainBoundedOutput (o : SessionEnd) : List String :=
  if stopitPropagates o then []
  else if stopitState o = 2 then ["success"] else []

/-- `main`'s dispatch on runtime (line 228): `runtime == 0` runs the
unbounded branch (no success indicator is ever printed there); a positive
runtime runs the bounded branch. -/
def mainOutput (runtime : Nat) (o : SessionEnd) : List String :=
  if runtime = 0 then [] else mainBoundedOutput o

/-! ## Helper lemmas -/

/-- `expInsert` appends exactly the one new entry after the two evictions,
which only remove existing entries. -/
theorem expInsert_entries_shape (c : ExpiringDict) (now : Nat) (v : String) :
    ∃ kept, (expInsert c now v).entries = kept ++ [(now, v)] ∧
      List.Sublist kept c.entries := by
  simp only [expInsert]
  by_cases h : c.maxLen ≤ (c.entries.filter (fun e => now ≤ e.1 + c.maxAge)).length
  · refine ⟨_, by rw [if_pos h], ?_⟩
    exact (List.drop_sublist _ _).trans (List.filter_sublist _)
  · refine ⟨_, by rw [if_neg h], List.filter_sublist _⟩

/-! ## Claim theorems -/

/-- Claim C2: every line that contains the touch marker as an exact substring
is classified as a touch: `process_line` returns True and records the line
in the cache under the current time, leaving the report file untouched —
also when the line contains a failure keyword, since the marker test comes
first. -/
theorem process_line_touch (line touchmark ts : String) (touches : ExpiringDict)
    (now : Nat) (report : List String) (h : strContains line touchmark = true) :
    process_line line touchmark touches now ts report =
      ⟨true, expInsert touches now line, report⟩ := by
  simp [process_line, h]

/-- Witness for C2 at a line that carries the touch marker and the failure
keyword `ERROR` at once. -/
theorem process_line_touch_witness :
    strContains "job ERROR (touch rep # SDQScript)\n" "(touch rep # SDQScript)" = true ∧
    process_line "job ERROR (touch rep # SDQScript)\n" "(touch rep # SDQScript)"
        ⟨1000, 420, []⟩ 7 "ts" [] =
      ⟨true, expInsert ⟨1000, 420, []⟩ 7 "job ERROR (touch rep # SDQScript)\n", []⟩ :=
  ⟨by decide, process_line_touch _ _ _ _ _ _ (by decide)⟩

/-- Claim C6: a line that contains one of the failure keywords `ERROR`,
`WARNING`, `WARN` as a case-sensitive substring but not the touch marker is
classified as a failure: `process_line` appends the timestamp-prefixed raw
line to the report file, leaves the cache unchanged and returns False. -/
theorem process_line_failure (line touchmark ts : String) (touches : ExpiringDict)
    (now : Nat) (report : List String) (h1 : strContains line touchmark = false)
    (h2 : lineFailed line = true) :
    process_line line touchmark touches now ts report =
      ⟨false, touches, report ++ [ts ++ "\t" ++ line]⟩ := by
  simp [process_line, h1, h2]

/-- Witness for C6 at a `WARN` line without the marker. -/
theorem process_line_failure_witness :
    strContains "disk WARN low\n" "(touch rep # SDQScript)" = false ∧
    lineFailed "disk WARN low\n" = true ∧
    process_line "disk WARN low\n" "(touch rep # SDQScript)" ⟨1000, 420, []⟩ 7 "T" ["old"] =
      ⟨false, ⟨1000, 420, []⟩, ["old", "T\tdisk WARN low\n"]⟩ :=
  ⟨by decide, by decide,
    process_line_failure _ _ _ _ _ _ (by decide) (by decide)⟩

/-- Claim C8: classification never errors — on a line with neither the touch
marker nor a failure keyword, `process_line` is the identity on the cache
and the report file and returns False.  (`process_line` is a total
function, so no run of it can raise.) -/
theorem process_line_ignore (line touchmark ts : String) (touches : ExpiringDict)
    (now : Nat) (report : List String) (h1 : strContains line touchmark = false)
    (h2 : lineFailed line = false) :
    process_line line touchmark touches now ts report = ⟨false, touches, report⟩ := by
  simp [process_line, h1, h2]

/-- Witness for C8 at an ordinary syslog line. -/
theorem process_line_ignore_witness :
    strContains "cron session opened\n" "(touch rep # SDQScript)" = false ∧
    lineFailed "cron session opened\n" = false ∧
    process_line "cron session opened\n" "(touch rep # SDQScript)" ⟨1000, 420, []⟩ 7 "T" ["old"] =
      ⟨false, ⟨1000, 420, []⟩, ["old"]⟩ :=
  ⟨by decide, by decide,
    process_line_ignore _ _ _ _ _ _ (by decide) (by decide)⟩

/-- Claim C10: frame effect of `process_line` — a marker line adds exactly one
cache entry (evictions aside, nothing else enters the cache) and never
writes to the report file, even when a failure keyword is also present; a
failure line appends one record to the report file and leaves the cache
unchanged; any other line changes neither artifact. -/
theorem process_line_frame (line touchmark ts : String) (touches : ExpiringDict)
    (now : Nat) (report : List String) :
    (strContains line touchmark = true →
      process_line line touchmark touches now ts report =
          ⟨true, expInsert touches now line, report⟩ ∧
        ∃ kept, (expInsert touches now line).entries = kept ++ [(now, line)] ∧
          List.Sublist kept touches.entries) ∧
    (strContains line touchmark = false → lineFailed line = true →
      process_line line touchmark touches now ts report =
        ⟨false, touches, report ++ [ts ++ "\t" ++ line]⟩) ∧
    (strContains line touchmark = false → lineFailed line = false →
      process_line line touchmark touches now ts report = ⟨false, touches, report⟩) := by
  refine ⟨fun h => ⟨by simp [process_line, h], expInsert_entries_shape touches now line⟩,
    fun h1 h2 => by simp [process_line, h1, h2],
    fun h1 h2 => by simp [process_line, h1, h2]⟩

/-- Claim C3: windowed eviction — with window 5 and any capacity at least 2,
inserting at time 0 and at time 6 leaves `Size()` = 1 at time 6; and in
general `Size()` never counts a stale entry: whenever some entry is older
than the window, the reported size is strictly below the raw entry count. -/
theorem expSize_window_eviction (cap : Nat) (v1 v2 : String) (h : 2 ≤ cap) :
    expSize (expInsert (expInsert ⟨cap, 5, []⟩ 0 v1) 6 v2) 6 = 1 ∧
    ∀ (c : ExpiringDict) (now : Nat),
      (∃ e ∈ c.entries, e.1 + c.maxAge < now) →
      expSize c now < c.entries.length := by
  constructor
  · have hc : ¬ cap ≤ 0 := by omega
    simp [expInsert, expSize, hc]
  · intro c now he
    refine (List.length_filter_lt_length_iff_exists).mpr ?_
    obtain ⟨e, hmem, hold⟩ := he
    exact ⟨e, hmem, by simp; omega⟩

/-- Witness for C3 at capacity 2. -/
theorem expSize_window_eviction_witness :
    2 ≤ 2 ∧ expSize (expInsert (expInsert ⟨2, 5, []⟩ 0 "a") 6 "b") 6 = 1 :=
  ⟨by decide, (expSize_window_eviction 2 "a" "b" (by decide)).1⟩

/-- Claim C4: capacity bound — an insert never pushes the entry count past
the configured capacity, and with capacity 2 and a large window three
inserts leave exactly the two most-recently-inserted entries. -/
theorem expInsert_capacity (c : ExpiringDict) (now : Nat) (v : String)
    (h1 : 1 ≤ c.maxLen) (h2 : c.entries.length ≤ c.maxLen) :
    (expInsert c now v).entries.length ≤ c.maxLen ∧
    (expInsert (expInsert (expInsert ⟨2, 1000, []⟩ 1 "a") 2 "b") 3 "c").entries
      = [(2, "b"), (3, "c")] := by
  constructor
  · simp only [expInsert]
    have hkl : (c.entries.filter (fun e => now ≤ e.1 + c.maxAge)).length
        ≤ c.entries.length := List.length_filter_le _ _
    by_cases hcap : c.maxLen ≤ (c.entries.filter (fun e => now ≤ e.1 + c.maxAge)).length
    · simp only [if_pos hcap, List.length_append, List.length_drop, List.length_cons,
        List.length_nil]
      omega
    · simp only [if_neg hcap, List.length_append, List.length_cons, List.length_nil]
      omega
  · decide

/-- Witness for C4 at a cache of capacity 2 holding one entry. -/
theorem expInsert_capacity_witness :
    1 ≤ (⟨2, 1000, [(1, "a")]⟩ : ExpiringDict).maxLen ∧
    (⟨2, 1000, [(1, "a")]⟩ : ExpiringDict).entries.length
      ≤ (⟨2, 1000, [(1, "a")]⟩ : ExpiringDict).maxLen ∧
    (expInsert ⟨2, 1000, [(1, "a")]⟩ 2 "b").entries.length
      ≤ (⟨2, 1000, [(1, "a")]⟩ : ExpiringDict).maxLen :=
  ⟨by decide, by decide,
    (expInsert_capacity ⟨2, 1000, [(1, "a")]⟩ 2 "b" (by decide) (by decide)).1⟩

/-- Claim C5: rotation trigger discipline for one iteration of the scan loop.
Starting below the threshold: a touch line that brings the counter to
`TOUCH_COUNT_FILE_ROTATE` rotates synchronously within the same iteration —
the resulting state holds the line in the cache (the insert happened before
the rename), the archive holds the pre-rotation report content, the file
counter advances and the touch counter resets to 0; a touch line below the
threshold only increments the counter; a non-touch line leaves it alone; and
in every case the counter stays below the threshold after the iteration, so
exactly `TOUCH_COUNT_FILE_ROTATE` touch lines separate consecutive
rotations and the counter never exceeds the threshold. -/
theorem scanStep_rotation_discipline (filename touchmark logfile ts line : String)
    (now : Nat) (s : ScanState) (h : s.touch_count < TOUCH_COUNT_FILE_ROTATE) :
    ((process_line line touchmark s.touches now ts s.report).isTouch = true →
      s.touch_count + 1 = TOUCH_COUNT_FILE_ROTATE →
      scanStep filename touchmark logfile ts now s line =
        ⟨0, s.file_count + 1, expInsert s.touches now line, [],
          createRotatingLog s.files filename logfile s.file_count :: s.files,
          (createRotatingLog s.files filename logfile s.file_count, s.report) :: s.archives⟩) ∧
    ((process_line line touchmark s.touches now ts s.report).isTouch = true →
      s.touch_count + 1 ≠ TOUCH_COUNT_FILE_ROTATE →
      (scanStep filename touchmark logfile ts now s line).touch_count = s.touch_count + 1 ∧
      (scanStep filename touchmark logfile ts now s line).file_count = s.file_count ∧
      (scanStep filename touchmark logfile ts now s line).archives = s.archives) ∧
    ((process_line line touchmark s.touches now ts s.report).isTouch = false →
      (scanStep filename touchmark logfile ts now s line).touch_count = s.touch_count ∧
      (scanStep filename touchmark logfile ts now s line).archives = s.archives) ∧
    (scanStep filename touchmark logfile ts now s line).touch_count
      < TOUCH_COUNT_FILE_ROTATE := by
  by_cases hm : strContains line touchmark = true
  · have hr : process_line line touchmark s.touches now ts s.report =
        ⟨true, expInsert s.touches now line, s.report⟩ := by simp [process_line, hm]
    refine ⟨fun _ h15 => ?_, fun _ h15 => ?_, fun hf => ?_, ?_⟩
    · simp [scanStep, hr, h15]
    · simp [scanStep, hr, h15]
    · rw [hr] at hf; simp at hf
    · by_cases h15 : s.touch_count + 1 = TOUCH_COUNT_FILE_ROTATE
      · simp [scanStep, hr, h15, TOUCH_COUNT_FILE_ROTATE]
      · simp only [scanStep, hr]
        simp only [TOUCH_COUNT_FILE_ROTATE] at h h15 ⊢
        simp [h15]
        omega
  · rw [Bool.not_eq_true] at hm
    have hne : s.touch_count ≠ TOUCH_COUNT_FILE_ROTATE := Nat.ne_of_lt h
    by_cases hf : lineFailed line = true
    · have hr : process_line line touchmark s.touches now ts s.report =
          ⟨false, s.touches, s.report ++ [ts ++ "\t" ++ line]⟩ := by
        simp [process_line, hm, hf]
      refine ⟨fun ht => ?_, fun ht => ?_, fun _ => ?_, ?_⟩
      · rw [hr] at ht; simp at ht
      · rw [hr] at ht; simp at ht
      · simp [scanStep, hr, hne]
      · simp [scanStep, hr, hne]; exact h
    · rw [Bool.not_eq_true] at hf
      have hr : process_line line touchmark s.touches now ts s.report =
          ⟨false, s.touches, s.report⟩ := by simp [process_line, hm, hf]
      refine ⟨fun ht => ?_, fun ht => ?_, fun _ => ?_, ?_⟩
      · rw [hr] at ht; simp at ht
      · rw [hr] at ht; simp at ht
      · simp [scanStep, hr, hne]
      · simp [scanStep, hr, hne]; exact h

/-- Witness for C5: the 15th touch of a batch rotates within the same
iteration, with the line already cached and the counter reset. -/
theorem scanStep_rotation_discipline_witness :
    (⟨14, 0, ⟨1000, 420, []⟩, [], [], []⟩ : ScanState).touch_count
      < TOUCH_COUNT_FILE_ROTATE ∧
    scanStep "rep" "M" "log" "ts" 3 ⟨14, 0, ⟨1000, 420, []⟩, [], [], []⟩ "M\n" =
      ⟨0, 1, ⟨1000, 420, [(3, "M\n")]⟩, [], ["log"], [("log", [])]⟩ :=
  ⟨by decide, by
    rw [(scanStep_rotation_discipline "rep" "M" "log" "ts" "M\n" 3
      ⟨14, 0, ⟨1000, 420, []⟩, [], [], []⟩ (by decide)).1 (by decide) (by decide)]
    decide⟩

/-- Every line the assembly loop emits ends in the terminator, and the
buffered fragment `acc` it started from is a prefix of the emitted line —
a fragment is never emitted on its own. -/
theorem assembleLine_complete : ∀ (reads : List String) (acc line : String)
    (rest : List String), assembleLine reads acc = some (line, rest) →
    endsNewline line = true ∧ ∃ t, line = acc ++ t := by
  intro reads
  induction reads with
  | nil => intro acc line rest hsome; simp [assembleLine] at hsome
  | cons d rs ih =>
    intro acc line rest hsome
    simp only [assembleLine] at hsome
    by_cases hd : d = ""
    · rw [if_pos hd] at hsome
      exact ih acc line rest hsome
    · rw [if_neg hd] at hsome
      by_cases hnl : endsNewline (acc ++ d) = true
      · rw [if_pos hnl] at hsome
        simp only [Option.some.injEq, Prod.mk.injEq] at hsome
        obtain ⟨h1, _⟩ := hsome
        exact ⟨h1 ▸ hnl, d, h1.symm⟩
      · rw [if_neg hnl] at hsome
        obtain ⟨h1, t, ht⟩ := ih (acc ++ d) line rest hsome
        exact ⟨h1, d ++ t, by rw [ht, String.append_assoc]⟩

/-- Claim C7: the tailer starts at the current end of the target file — a
reader positioned by `seekEnd` over the content present at start sees
exactly the content appended afterwards, never the historical part — and
every line the assembly loop passes on is complete: it ends with the line
terminator, and the buffered fragment is prefixed to the next reads rather
than emitted on its own. -/
theorem tailer_seek_and_complete_lines :
    (∀ (content appended : List Char),
      readFrom (content ++ appended) (seekEnd content) = appended) ∧
    (∀ (reads : List String) (acc line : String) (rest : List String),
      assembleLine reads acc = some (line, rest) →
      endsNewline line = true ∧ ∃ t, line = acc ++ t) := by
  constructor
  · intro content appended
    simp only [readFrom, seekEnd]
    exact List.drop_left content appended
  · exact assembleLine_complete

/-- Claim C9: a bounded run (positive runtime) that reaches its deadline
without a prior fatal error prints the success indicator and no error
indicator — the expected timeout is a successful, planned termination. -/
theorem mainOutput_deadline_success (runtime : Nat) (o : SessionEnd)
    (hr : 0 < runtime) (ho : o = SessionEnd.deadline) :
    mainOutput runtime o = ["success"] ∧
    "error: exception_seen" ∉ mainOutput runtime o := by
  subst ho
  have hz : ¬ runtime = 0 := by omega
  refine ⟨?_, ?_⟩
  · simp [mainOutput, mainBoundedOutput, stopitPropagates, stopitState, hz]
  · simp [mainOutput, mainBoundedOutput, stopitPropagates, stopitState, hz]

/-- Witness for C9 at runtime 1 minute. -/
theorem mainOutput_deadline_success_witness :
    0 < 1 ∧ mainOutput 1 SessionEnd.deadline = ["success"] :=
  ⟨by decide, (mainOutput_deadline_success 1 SessionEnd.deadline (by decide) rfl).1⟩

/-- The rotation counter after `n` rotations is `n`: `file_count` is
incremented after every call of `createRotatingLog`, the first (unsuffixed)
rotation included. -/
theorem rotState_snd (filename logfile : String) :
    ∀ n, (rotState filename logfile n).2 = n
  | 0 => rfl
  | n + 1 => by simp [rotState, rotState_snd filename logfile n]

/-- From the first rotation on, a file exists at the unsuffixed archive
path: the first rotation put it there. -/
theorem logfile_mem_rotState (filename logfile : String) :
    ∀ n, logfile ∈ (rotState filename logfile (n + 1)).1
  | 0 => by simp [rotState, createRotatingLog]
  | n + 1 => by
    simp only [rotState]
    exact List.mem_cons_of_mem _ (logfile_mem_rotState filename logfile n)

set_option maxRecDepth 8000 in
/-- Claim C1 counterexample: in a fresh session with archive name `log`,
running the scan loop over 30 touch-marker lines performs two rotations,
and the second one names the archive `log.1` — not `log.0` as the claim
states; `rotTarget` shows the same on the rotation subsystem alone. -/
theorem secondRotation_not_suffix_zero :
    (scanRun "rep" "M" "log" "ts" initialScanState (touchLines 30)).archives.map Prod.fst
      = ["log.1", "log"] ∧
    rotTarget "rep" "log" 1 = "log.1" ∧ ("log.1" : String) ≠ "log.0" := by
  refine ⟨by decide, by decide, by decide⟩

set_option maxRecDepth 8000 in
/-- Claim C1 as amended: in a fresh session the first rotation renames the
report file to the unsuffixed archive name; from then on the `(n+1)`-th
rotation renames it to `archiveName.n` — the numeric suffix sequence starts
at 1, not 0, because the file counter also increments on the first,
unsuffixed rotation.  Concretely, 45 touch lines through the scan loop
archive `log`, then `log.1`, then `log.2`. -/
theorem rotation_suffix_starts_at_one (filename logfile : String) :
    rotTarget filename logfile 0 = logfile ∧
    (∀ n : Nat, rotTarget filename logfile (n + 1) = logfile ++ "." ++ toString (n + 1)) ∧
    (scanRun "rep" "M" "log" "ts" initialScanState (touchLines 45)).archives.map Prod.fst
      = ["log.2", "log.1", "log"] := by
  refine ⟨?_, ?_, by decide⟩
  · simp [rotTarget, rotState, createRotatingLog]
  · intro n
    unfold rotTarget createRotatingLog
    rw [rotState_snd, if_pos (logfile_mem_rotState filename logfile n)]
